import Mathlib

/-!
Verification of the local movie-library search engine of the turtle_app
repository, against the claims of its natural-language specification.

The Python source embedded here:
  src/turtleapp/src/utils/movie_names.py
    (clean_movie_filename, extract_movie_metadata)
  src/turtleapp/src/core/tools/library_manager.py
    (LibraryManagerTool: _parse_user_intent, _filter_by_extension,
     _search_movies, _format_output, _run; handle_tool_errors from
     src/turtleapp/src/utils/error_handler.py)

Embedding conventions:
  - Python strings are Lean String values; the code operates on the
    underlying List Char.  The inputs of this program (filenames and chat
    messages) are treated as ASCII: str.lower, the regex classes \s, \w,
    \d and \b are embedded by their ASCII meaning.
  - Python floats are embedded as Rat.  Every arithmetic operation the
    code performs on scores (multiplication by 1.1, min with 1.0,
    division of small integers, comparison against 0.6) is exact.
  - os.path.splitext is embedded with its POSIX semantics: split at the
    last dot of the last path component, except when that component
    consists only of leading dots up to the split point.
  - difflib.SequenceMatcher(None, a, b).ratio() is embedded by the
    Ratcliff/Obershelp computation difflib performs: recursively take
    the longest matching block (maximal length, then earliest in a,
    then earliest in b) and sum the matched lengths.  The autojunk
    heuristic of difflib only activates when the second string has at
    least 200 characters, which the embedding does not model.
  - Recursive functions take an explicit fuel argument (always called
    with fuel at least the structural depth plus one) so that every
    definition is structurally recursive and kernel-reducible.
-/

/-! ## ASCII character classes and basic Python string operations -/

/-- ASCII digit, the embedding of the regex class \d on ASCII input. -/
def is_ascii_digit (c : Char) : Bool := '0' ≤ c && c ≤ '9'

/-- ASCII letter. -/
def is_ascii_alpha (c : Char) : Bool :=
  ('a' ≤ c && c ≤ 'z') || ('A' ≤ c && c ≤ 'Z')

/-- ASCII letter or digit, the regex class [a-zA-Z0-9]. -/
def is_ascii_alnum (c : Char) : Bool := is_ascii_alpha c || is_ascii_digit c

/-- Word character, the regex class \w on ASCII input: [a-zA-Z0-9_]. -/
def is_word_char (c : Char) : Bool := is_ascii_alnum c || c == '_'

/-- Whitespace, the regex class \s and the str.split/str.strip whitespace
set, on ASCII input. -/
def is_py_space (c : Char) : Bool :=
  c == ' ' || c == '\t' || c == '\n' || c == '\r' || c == '\x0b' || c == '\x0c'

/-- str.lower on an ASCII character. -/
def ascii_lower_char (c : Char) : Char :=
  if 'A' ≤ c && c ≤ 'Z' then Char.ofNat (c.toNat + 32) else c

/-- str.lower on an ASCII string. -/
def ascii_lower (s : String) : String := String.mk (s.data.map ascii_lower_char)

/-- Index of the last occurrence of a character, str.rfind: -1 when absent.
Returned as Int because os.path.splitext compares the two rfind results. -/
def last_index_of (c : Char) : List Char → Int
  | [] => -1
  | d :: ds =>
    let r := last_index_of c ds
    if r ≥ 0 then r + 1 else if d == c then 0 else -1

/-- os.path.splitext on the character list of a POSIX path: split at the
last '.' that comes after the last '/', unless every character of the
last component before that dot is itself a dot (leading-dot files keep
their name whole). -/
def splitext_chars (p : List Char) : List Char × List Char :=
  let sepIndex := last_index_of '/' p
  let dotIndex := last_index_of '.' p
  if dotIndex > sepIndex then
    let filenameIndex := (sepIndex + 1).toNat
    if ((p.drop filenameIndex).take (dotIndex.toNat - filenameIndex)).any
        (fun c => c ≠ '.') then
      (p.take dotIndex.toNat, p.drop dotIndex.toNat)
    else (p, [])
  else (p, [])

/-- os.path.splitext on a string. -/
def splitext (s : String) : String × String :=
  let r := splitext_chars s.data
  (String.mk r.1, String.mk r.2)

/-- os.path.basename on a POSIX path: everything after the last '/'. -/
def basename (p : String) : String :=
  String.mk (p.data.drop (last_index_of '/' p.data + 1).toNat)

/-- str.strip() : remove leading and trailing whitespace. -/
def py_strip (s : String) : String :=
  String.mk (((s.data.dropWhile is_py_space).reverse.dropWhile is_py_space).reverse)

/-- str.lstrip with argument a single dot: drop every leading '.'. -/
def lstrip_dots (s : String) : String :=
  String.mk (s.data.dropWhile (fun c => c == '.'))

/-- Python slicing l[:limit] for an arbitrary (possibly negative) int limit:
a nonnegative limit keeps the first limit elements, a negative limit drops
the last -limit elements. -/
def py_slice_to (limit : Int) (l : List α) : List α :=
  if 0 ≤ limit then l.take limit.toNat
  else l.take (l.length - (-limit).toNat)

/-- Whether the pattern list is a prefix of the second list. -/
def starts_with : List Char → List Char → Bool
  | [], _ => true
  | _ :: _, [] => false
  | c :: cs, d :: ds => c == d && starts_with cs ds

/-- Python substring containment (needle in hay). -/
def str_contains_chars (hay needle : List Char) : Bool :=
  match hay with
  | [] => starts_with needle []
  | _ :: rest => starts_with needle hay || str_contains_chars rest needle

/-- str.split() with fuel: split on runs of whitespace, discarding empties. -/
def split_ws_fuel : Nat → List Char → List (List Char)
  | 0, _ => []
  | Nat.succ fuel, s =>
    let s' := s.dropWhile is_py_space
    match s' with
    | [] => []
    | _ :: _ =>
      let w := s'.takeWhile (fun c => !is_py_space c)
      w :: split_ws_fuel fuel (s'.drop w.length)

/-- str.split() : whitespace-separated words of a string. -/
def split_ws (s : List Char) : List (List Char) := split_ws_fuel (s.length + 1) s

/-- First hit of a position-indexed partial function, scanning i, i+1, ...
for at most fuel positions.  This is the embedding of re.search: the
leftmost position where the pattern matches wins. -/
def first_hit (f : Nat → Option α) : Nat → Nat → Option α
  | _, 0 => none
  | i, Nat.succ fuel =>
    match f i with
    | some a => some a
    | none => first_hit f (i + 1) fuel

/-- The character at an index, if in range. -/
def char_at (s : List Char) (i : Nat) : Option Char := (s.drop i).head?

/-! ## Filename Normalizer: clean_movie_filename (movie_names.py lines 30-32)

    name_without_ext = os.path.splitext(filename)[0]
    clean = re.sub(r'[^a-zA-Z0-9\s]', '', name_without_ext)
    return re.sub(r'^(.{5}.*?\d{4}).*|^(.{30}).*', r'\1\2', clean)

Note the first re.sub replaces with the EMPTY string: characters outside
[a-zA-Z0-9\s] are deleted, not turned into spaces, and existing whitespace
is kept unchanged.  The second re.sub is anchored, so it rewrites at most
once, at position 0;  the regex dot does not match a newline, the lazy
group finds the earliest position q ≥ 5 where four consecutive \d digits
start, and the trailing .* swallows the rest of the line only. -/

/-- Four consecutive ASCII digits start at position q of s. -/
def four_digits_at (s : List Char) (q : Nat) : Bool :=
  ((s.drop q).take 4).length == 4 && ((s.drop q).take 4).all is_ascii_digit

/-- Scan for the earliest q (starting from the given position) where four
consecutive digits start; abort at a newline or at the end of the string,
exactly as the lazy .*? of the pattern can only consume non-newline
characters. -/
def scan_quad (s : List Char) : Nat → Nat → Option Nat
  | _, 0 => none
  | q, Nat.succ fuel =>
    if four_digits_at s q then some q
    else
      match s.drop q with
      | [] => none
      | c :: _ => if c == '\n' then none else scan_quad s (q + 1) fuel

/-- End position of a trailing .* begun at position i: consume every
following character up to (not including) the next newline. -/
def dot_star_end (s : List Char) (i : Nat) : Nat :=
  i + ((s.drop i).takeWhile (fun c => c ≠ '\n')).length

/-- The second alternative ^(.{30}).* of the truncation pattern: match only
when the string has 30 leading non-newline characters, keep those 30 and
drop the rest of that line. -/
def trunc_alt2 (s : List Char) : List Char :=
  if 30 ≤ s.length && (s.take 30).all (fun c => c ≠ '\n') then
    s.take 30 ++ s.drop (dot_star_end s 30)
  else s

/-- Embedding of re.sub(r'^(.{5}.*?\d{4}).*|^(.{30}).*', r'\1\2', s). -/
def trunc_chars (s : List Char) : List Char :=
  if (s.take 5).length == 5 && (s.take 5).all (fun c => c ≠ '\n') then
    match scan_quad s 5 (s.length + 1) with
    | some q => s.take (q + 4) ++ s.drop (dot_star_end s (q + 4))
    | none => trunc_alt2 s
  else trunc_alt2 s

/-- Strip the extension and delete characters outside [a-zA-Z0-9\s]:
the first two lines of clean_movie_filename. -/
def clean_chars_of (f : String) : List Char :=
  ((splitext_chars f.data).1).filter (fun c => is_ascii_alnum c || is_py_space c)

/-- clean_movie_filename from movie_names.py. -/
def clean_movie_filename (f : String) : String :=
  String.mk (trunc_chars (clean_chars_of f))

/-! ## Filename Normalizer: extract_movie_metadata (movie_names.py lines 49-69)

    year_match = re.search(r'\b(19\d{2}|20\d{2})\b', name_without_ext)
    quality_match = re.search(r'(1080p|720p|2160p|4K|BluRay|BRRip|WEB-DL|WEBRip|HDRip)',
                              name_without_ext, re.IGNORECASE)
    format = os.path.splitext(filename)[1].lower()
-/

/-- The result record of extract_movie_metadata. -/
structure MovieMetadata where
  title : String
  year : Option String
  quality : Option String
  format : String
deriving Repr, DecidableEq

/-- Attempt of the pattern \b(19\d{2}|20\d{2})\b at one position: a word
boundary, then 19 or 20 and two more digits, then a word boundary. -/
def year_at (s : List Char) (p : Nat) : Option (List Char) :=
  let w := (s.drop p).take 4
  let bl : Bool :=
    p == 0 ||
      (match char_at s (p - 1) with
       | some c => !is_word_char c
       | none => true)
  let br : Bool :=
    match char_at s (p + 4) with
    | some c => !is_word_char c
    | none => true
  match w with
  | [a, b, c, d] =>
    if bl && br && ((a == '1' && b == '9') || (a == '2' && b == '0'))
        && is_ascii_digit c && is_ascii_digit d then
      some [a, b, c, d]
    else none
  | _ => none

/-- re.search of the year pattern: the leftmost position wins. -/
def find_year (s : List Char) : Option (List Char) :=
  first_hit (year_at s) 0 (s.length + 1)

/-- Case-insensitive equality of two ASCII character lists. -/
def ci_eq : List Char → List Char → Bool
  | [], [] => true
  | a :: as_, b :: bs => ascii_lower_char a == ascii_lower_char b && ci_eq as_ bs
  | _, _ => false

/-- The quality alternation, in the order the source writes it; re
alternation tries the branches left to right at each position. -/
def quality_vocab : List (List Char) :=
  ["1080p".data, "720p".data, "2160p".data, "4K".data, "BluRay".data,
   "BRRip".data, "WEB-DL".data, "WEBRip".data, "HDRip".data]

/-- Attempt of the quality alternation at one position, case-insensitively;
group(1) returns the text as it appears in the string. -/
def quality_at (s : List Char) (p : Nat) : Option (List Char) :=
  quality_vocab.findSome? (fun w =>
    let seg := (s.drop p).take w.length
    if seg.length == w.length && ci_eq seg w then some seg else none)

/-- re.search of the quality pattern with re.IGNORECASE. -/
def find_quality (s : List Char) : Option (List Char) :=
  first_hit (quality_at s) 0 (s.length + 1)

/-- extract_movie_metadata from movie_names.py. -/
def extract_movie_metadata (f : String) : MovieMetadata :=
  let root := (splitext_chars f.data).1
  { title := clean_movie_filename f
    year := (find_year root).map String.mk
    quality := (find_quality root).map String.mk
    format := String.mk (((splitext_chars f.data).2).map ascii_lower_char) }

/-! ## Intent Parser: LibraryManagerTool._parse_user_intent
(library_manager.py lines 53-132) -/

/-- A regex atom of the explicit-filter patterns: a literal, or a
one-or-more repetition of a character class. -/
inductive RAtom where
  | lit (l : List Char)
  | plus (cls : Char → Bool)

/-- Backtracking matcher: does the atom sequence match a prefix of s?
Each recursive call shrinks atoms-length plus string-length, so fuel
of that sum plus one is always enough. -/
def match_seq : Nat → List RAtom → List Char → Bool
  | 0, _, _ => false
  | Nat.succ _, [], _ => true
  | Nat.succ fuel, RAtom.lit l :: rest, s =>
    starts_with l s && match_seq fuel rest (s.drop l.length)
  | Nat.succ fuel, RAtom.plus cls :: rest, s =>
    match s with
    | [] => false
    | c :: cs =>
      cls c && (match_seq fuel rest cs || match_seq fuel (RAtom.plus cls :: rest) cs)

/-- re.search of an atom sequence: match starting at any position. -/
def search_atoms_from (atoms : List RAtom) : List Char → Bool
  | [] => match_seq (atoms.length + 1) atoms []
  | c :: cs =>
    match_seq (atoms.length + (c :: cs).length + 1) atoms (c :: cs) ||
      search_atoms_from atoms cs

/-- The four explicit-filter patterns of _parse_user_intent:
show\s+me\s+\w+\s+files, only\s+\w+, just\s+\w+\s+files, \w+\s+files\s+only. -/
def explicit_filter_patterns : List (List RAtom) :=
  [[RAtom.lit "show".data, RAtom.plus is_py_space, RAtom.lit "me".data,
    RAtom.plus is_py_space, RAtom.plus is_word_char, RAtom.plus is_py_space,
    RAtom.lit "files".data],
   [RAtom.lit "only".data, RAtom.plus is_py_space, RAtom.plus is_word_char],
   [RAtom.lit "just".data, RAtom.plus is_py_space, RAtom.plus is_word_char,
    RAtom.plus is_py_space, RAtom.lit "files".data],
   [RAtom.plus is_word_char, RAtom.plus is_py_space, RAtom.lit "files".data,
    RAtom.plus is_py_space, RAtom.lit "only".data]]

/-- Occurrence of the word w at position p flanked by word boundaries,
for a w that consists of word characters: \bw\b. -/
def word_bounded_at (msg w : List Char) (p : Nat) : Bool :=
  starts_with w (msg.drop p) &&
    (p == 0 ||
      (match char_at msg (p - 1) with
       | some c => !is_word_char c
       | none => true)) &&
    (match char_at msg (p + w.length) with
     | some c => !is_word_char c
     | none => true)

/-- Occurrence of '.' ++ w at position p matching the alternative \.w
inside \b(w|\.w)\b: the boundary before the dot requires a word character
on its left, the boundary after w requires none on its right. -/
def dot_word_bounded_at (msg w : List Char) (p : Nat) : Bool :=
  starts_with ('.' :: w) (msg.drop p) &&
    (decide (0 < p) &&
      (match char_at msg (p - 1) with
       | some c => is_word_char c
       | none => false)) &&
    (match char_at msg (p + w.length + 1) with
     | some c => !is_word_char c
     | none => true)

/-- re.search(r'\b(fmt|\.fmt)\b', msg) for one of the format words. -/
def has_format_mention (msg w : List Char) : Bool :=
  (List.range (msg.length + 1)).any (fun p =>
    word_bounded_at msg w p || dot_word_bounded_at msg w p)

/-- The format_patterns dict of _parse_user_intent, in insertion order. -/
def format_words : List String := ["mkv", "mp4", "avi", "mov", "wmv"]

/-- re.findall(r'\b[a-zA-Z0-9]+\b', s): the maximal word-character runs
that consist purely of alphanumerics (a run containing an underscore has
no inner word boundary, so no token can be taken from it). -/
def findall_alnum_words_fuel : Nat → List Char → List String
  | 0, _ => []
  | Nat.succ fuel, s =>
    let s' := s.dropWhile (fun c => !is_word_char c)
    match s' with
    | [] => []
    | _ :: _ =>
      let run := s'.takeWhile is_word_char
      let rest := findall_alnum_words_fuel fuel (s'.drop run.length)
      if run.all is_ascii_alnum then String.mk run :: rest else rest

/-- re.findall(r'\b[a-zA-Z0-9]+\b', s). -/
def findall_alnum_words (s : List Char) : List String :=
  findall_alnum_words_fuel (s.length + 1) s

/-- The stop-word set of _parse_user_intent. -/
def stop_words : List String :=
  ["do", "i", "have", "show", "me", "my", "what", "movies", "files",
   "the", "a", "an", "is", "in", "library", "collection", "only", "just"]

/-- LibraryManagerTool._parse_user_intent: returns
(search_query, file_format, intent_type). -/
def parse_user_intent (message : String) : String × String × String :=
  let message_lower := (ascii_lower message).data
  let is_explicit_filter :=
    explicit_filter_patterns.any (fun p => search_atoms_from p message_lower)
  let file_format :=
    match format_words.find? (fun fmt => has_format_mention message_lower fmt.data) with
    | some fmt => fmt
    | none => ""
  let intent_type :=
    if file_format ≠ "" && is_explicit_filter then "format_filter" else "general_scan"
  let words := findall_alnum_words message_lower
  let keywords := words.filter (fun w =>
    !stop_words.contains w && (w ≠ file_format || is_explicit_filter))
  let search_query := " ".intercalate keywords
  if keywords ≠ [] then
    (search_query, file_format,
      if intent_type = "general_scan" then "specific_search" else intent_type)
  else ("", file_format, intent_type)

/-! ## Format filter: LibraryManagerTool._filter_by_extension
(library_manager.py lines 134-152) -/

/-- Lowercased extension of a path without its leading dot:
os.path.splitext(file_path)[1].lower().lstrip('.'). -/
def ext_of (path : String) : String :=
  lstrip_dots (String.mk (((splitext_chars path.data).2).map ascii_lower_char))

/-- Python dict item assignment d[k] = v on an insertion-ordered
association list: overwrite in place when the key exists, append
otherwise. -/
def dict_insert (d : List (String × String)) (k v : String) :
    List (String × String) :=
  if d.any (fun kv => kv.1 == k) then
    d.map (fun kv => if kv.1 == k then (k, v) else kv)
  else d ++ [(k, v)]

/-- LibraryManagerTool._filter_by_extension: the movies dict (embedded as
its insertion-ordered item list) restricted to paths whose extension
equals the format; the empty format returns the dict unchanged. -/
def filter_by_extension (movies : List (String × String)) (format : String) :
    List (String × String) :=
  if format = "" then movies
  else
    movies.foldl (fun acc kv =>
      if ext_of kv.2 == format then dict_insert acc kv.1 kv.2 else acc) []

/-! ## Fuzzy Matcher: LibraryManagerTool._search_movies
(library_manager.py lines 154-236) -/

/-- Length of the common prefix run of two character lists that agrees
pointwise: the length of the matching block starting at a given pair of
positions once the lists are dropped there. -/
def match_len : List Char → List Char → Nat
  | a :: as_, b :: bs => if a == b then match_len as_ bs + 1 else 0
  | _, _ => 0

/-- difflib SequenceMatcher.find_longest_match over the whole strings:
among all matching blocks of maximal length, the one starting earliest
in a, then earliest in b.  Scanning i ascending then j ascending and
replacing only on a strictly longer match realises exactly that choice. -/
def best_match (a b : List Char) : Nat × Nat × Nat :=
  (List.range (a.length + 1)).foldl (fun best i =>
    (List.range (b.length + 1)).foldl (fun best j =>
      let k := match_len (a.drop i) (b.drop j)
      if best.2.2 < k then (i, j, k) else best) best) (0, 0, 0)

/-- Total size of the matching blocks difflib's get_matching_blocks
collects: take the longest match, then recurse on the parts to its left
and to its right.  Fuel at least length a + 1 always suffices, because
each recursive call strictly shortens a. -/
def matched_total_fuel : Nat → List Char → List Char → Nat
  | 0, _, _ => 0
  | Nat.succ fuel, a, b =>
    let m := best_match a b
    if m.2.2 == 0 then 0
    else
      m.2.2 + matched_total_fuel fuel (a.take m.1) (b.take m.2.1) +
        matched_total_fuel fuel (a.drop (m.1 + m.2.2)) (b.drop (m.2.1 + m.2.2))

/-- Sum of matched block sizes of the two strings. -/
def matched_total (a b : List Char) : Nat :=
  matched_total_fuel (a.length + 1) a b

/-- difflib.SequenceMatcher(None, a, b).ratio(): 2*M / (len(a)+len(b)),
and 1.0 when both strings are empty (difflib._calculate_ratio). -/
def similarity (a b : List Char) : Rat :=
  if a.length + b.length == 0 then 1
  else (2 * (matched_total a b) : Rat) / ((a.length + b.length : Nat) : Rat)

/-- The 4-tier score of _search_movies for one movie name, before the
format boost: exact substring 1.0; all keywords present 0.9; fuzzy
similarity when at least 0.6; else 0.5 * matched/total keywords when
positive, and 0.0 otherwise. -/
def tier_score (query_lower movie_lower : List Char) : Rat :=
  let query_words := split_ws query_lower
  if str_contains_chars movie_lower query_lower then 1
  else if query_words.all (fun w => str_contains_chars movie_lower w) then 9 / 10
  else
    let sim := similarity query_lower movie_lower
    if 3 / 5 ≤ sim then sim
    else
      let matched := (query_words.filter (fun w => str_contains_chars movie_lower w)).length
      if 0 < matched then (1 / 2) * ((matched : Rat) / (query_words.length : Rat))
      else 0

/-- Score of one entry including the format-hint boost: when the hint is
non-empty, the tier score positive and the file extension equal to the
hint, multiply by 1.1 and cap at 1.0. -/
def score_entry (query format_hint name path : String) : Rat :=
  let base := tier_score (ascii_lower query).data (ascii_lower name).data
  if format_hint ≠ "" ∧ 0 < base then
    if ext_of path = format_hint then min 1 (base * (11 / 10)) else base
  else base

/-- Stable descending insertion: keep walking past strictly greater scores,
so that equal scores preserve the original order, as Python's stable
list.sort(key=..., reverse=True) does. -/
def insert_desc (x : String × String × Rat) :
    List (String × String × Rat) → List (String × String × Rat)
  | [] => [x]
  | y :: ys => if x.2.2 < y.2.2 then y :: insert_desc x ys else x :: y :: ys

/-- Stable sort by score descending (insertion sort from the right). -/
def sort_desc (l : List (String × String × Rat)) : List (String × String × Rat) :=
  l.foldr insert_desc []

/-- LibraryManagerTool._search_movies: empty query lists the first limit
entries with score 1.0; otherwise score every entry, keep the positive
ones, sort stably by score descending and truncate to limit. -/
def search_movies (movies : List (String × String)) (query : String)
    (limit : Int) (format_hint : String) : List (String × String × Rat) :=
  if query = "" then
    (py_slice_to limit movies).map (fun kv => (kv.1, kv.2, (1 : Rat)))
  else
    let results := movies.filterMap (fun kv =>
      let s := score_entry query format_hint kv.1 kv.2
      if 0 < s then some (kv.1, kv.2, s) else none)
    py_slice_to limit (sort_desc results)

/-! ## Result Tiering Formatter: LibraryManagerTool._format_output
(library_manager.py lines 238-336) -/

/-- Optional " (year)" suffix of a metadata record. -/
def year_suffix (md : MovieMetadata) : String :=
  match md.year with
  | some y => " (" ++ y ++ ")"
  | none => ""

/-- Optional " [quality]" suffix of a metadata record. -/
def quality_suffix (md : MovieMetadata) : String :=
  match md.quality with
  | some q => " [" ++ q ++ "]"
  | none => ""

/-- One detailed entry of the Tier 1 listing. -/
def tier1_entry (r : String × String × Rat) : String :=
  let md := extract_movie_metadata (basename r.2.1)
  r.1 ++ year_suffix md ++ quality_suffix md ++
    "\nFormat: " ++ md.format ++ " | Path: " ++ r.2.1 ++ "\n\n"

/-- Tier 1 of _format_output: detailed listing with full metadata. -/
def tier1_render (results : List (String × String × Rat)) (query : String) :
    String :=
  let n := results.length
  let header :=
    "Found " ++ toString n ++ " movie" ++ (if n ≠ 1 then "s" else "") ++
      (if query ≠ "" then " matching '" ++ query ++ "'" else "")
  py_strip
    (if 0 < n then header ++ ":\n\n" ++ String.join (results.map tier1_entry)
     else header ++ ".\n")

/-- One summarized line of the Tier 2 listing. -/
def tier2_entry (r : String × String × Rat) : String :=
  let md := extract_movie_metadata (basename r.2.1)
  "- " ++ r.1 ++ year_suffix md ++ "\n"

/-- Tier 2 of _format_output: top five matches plus a remainder count. -/
def tier2_render (results : List (String × String × Rat)) (query : String) :
    String :=
  let n := results.length
  py_strip
    ("Found " ++ toString n ++ " movies" ++
      (if query ≠ "" then " matching '" ++ query ++ "'" else "") ++
      ". Top matches:\n\n" ++
      String.join ((results.take 5).map tier2_entry) ++
      (if 5 < n then "\n... and " ++ toString (n - 5) ++ " more" else ""))

/-- Python dict counting d[k] = d.get(k, 0) + 1 on an insertion-ordered
association list. -/
def count_insert (d : List (String × Nat)) (k : String) : List (String × Nat) :=
  if d.any (fun kv => kv.1 == k) then
    d.map (fun kv => if kv.1 == k then (kv.1, kv.2 + 1) else kv)
  else d ++ [(k, 1)]

/-- Count-by-extension breakdown over the full library, keys in order of
first appearance; the extension keeps its leading dot and is lowercased. -/
def ext_counts (all_movies : List (String × String)) : List (String × Nat) :=
  all_movies.foldl (fun acc kv =>
    count_insert acc (String.mk (((splitext_chars kv.2.data).2).map ascii_lower_char))) []

/-- Tier 3 of _format_output, statistics over the full library.
Modelled from the spec: lines 329-331 of library_manager.py are
syntactically invalid Python (the sample-movies assignment and for-loop
are misindented, an IndentationError), so the Tier 3 body cannot run as
written; this definition renders the statistics output those lines,
the function's docstring and the spec describe, with
DefaultValues.DEFAULT_SAMPLE_MOVIES = 5 (src/turtleapp/src/constants.py). -/
def tier3_render (all_movies : List (String × String)) : String :=
  let total := all_movies.length
  "Library scan completed. Found " ++ toString total ++ " movies.\n" ++
    "File types: " ++
    ", ".intercalate ((ext_counts all_movies).map
      (fun ec => ec.1 ++ ": " ++ toString ec.2)) ++ "\n" ++
    "Sample movies:\n" ++
    String.join ((all_movies.take 5).map (fun kv => "- " ++ kv.1 ++ "\n")) ++
    (if 5 < total then "... and " ++ toString (total - 5) ++ " more" else "")

/-- LibraryManagerTool._format_output: the three-tier dispatch on
(result count, intent). -/
def format_output (all_movies : List (String × String))
    (results : List (String × String × Rat)) (query intent : String) : String :=
  if results.length ≤ 5 ∧ (intent = "specific_search" ∨ intent = "format_filter") then
    tier1_render results query
  else if results.length ≤ 20 ∧ (intent = "specific_search" ∨ intent = "format_filter") then
    tier2_render results query
  else tier3_render all_movies

/-! ## The composed entry point: LibraryManagerTool._run
(library_manager.py lines 338-369) wrapped by handle_tool_errors
(error_handler.py lines 24-34). -/

/-- The body of _run for a string message, with the SMB scan result
supplied as an input mapping.
Modelled from the spec: scan_smb_movie_library performs network I/O
(out of scope, the scan() collaborator), so its result is a parameter. -/
def run_core (scan : List (String × String)) (user_message : String) : String :=
  let parsed := parse_user_intent user_message
  let search_query := parsed.1
  let file_format := parsed.2.1
  let intent_type := parsed.2.2
  let all_movies := scan
  let filtered_movies :=
    if intent_type = "format_filter" ∧ file_format ≠ "" then
      filter_by_extension all_movies file_format
    else all_movies
  let search_results :=
    if search_query ≠ "" then
      search_movies filtered_movies search_query 20 file_format
    else (filtered_movies.take 20).map (fun kv => (kv.1, kv.2, (1 : Rat)))
  format_output all_movies search_results search_query intent_type

/-- A Python argument value for _run: the declared string case and a
representative non-string (int) case.
Modelled from the spec: run() should be "capable of raising on truly
invalid input (e.g., non-string arguments)"; a non-string argument makes
message.lower() in _parse_user_intent raise AttributeError. -/
inductive PyVal where
  | str (s : String)
  | pyint (n : Int)

/-- The undecorated _run as a fallible computation: ok for strings,
AttributeError for a non-string argument. -/
def run_body (scan : List (String × String)) : PyVal → Except String String
  | PyVal.str msg => Except.ok (run_core scan msg)
  | PyVal.pyint _ => Except.error "'int' object has no attribute 'lower'"

/-- The handle_tool_errors decorator of error_handler.py: run the wrapped
function, catch any Exception e and return
f"{default_return} Details: {str(e)}" instead of re-raising. -/
def handle_tool_errors_wrap (default_return : String)
    (f : PyVal → Except String String) (v : PyVal) : Except String String :=
  match f v with
  | Except.ok s => Except.ok s
  | Except.error e => Except.ok (default_return ++ " Details: " ++ e)

/-- The decorated _run, as exposed on LibraryManagerTool:
handle_tool_errors(default_return="Library scan failed") applied to it. -/
def run_tool (scan : List (String × String)) (v : PyVal) : Except String String :=
  handle_tool_errors_wrap "Library scan failed" (run_body scan) v

/-! ## Specification-side definitions

Definitions in this section follow the words of the spec (or of the claim
under scrutiny), to be compared with the embeddings above.  They use
List.range/List.range' with findSome? where the code-side embeddings scan
recursively, so that the comparison theorems are not definitional. -/

/-- Four characters at position q matching the year pattern 19xx/20xx
(without any word-boundary requirement). -/
def year_quad_at (s : List Char) (q : Nat) : Bool :=
  match (s.drop q).take 4 with
  | [a, b, c, d] =>
    ((a == '1' && b == '9') || (a == '2' && b == '0')) &&
      is_ascii_digit c && is_ascii_digit d
  | _ => false

/-- Claim C3 as stated: after cleaning, truncate right after the first
19xx/20xx year token that starts at or after the 6th character, else keep
the first 30 characters (shorter strings unchanged). -/
def claim_clean_title (f : String) : String :=
  let s := clean_chars_of f
  match (List.range' 5 (s.length + 1)).findSome?
      (fun q => if year_quad_at s q then some q else none) with
  | some q => String.mk (s.take (q + 4))
  | none => String.mk (s.take 30)

/-- The amended truncation rule, as the code implements it: the first
position q ≥ 5 where ANY four consecutive digits start wins, else the
first 30 characters (shorter strings unchanged). -/
def spec_clean_title (f : String) : String :=
  let s := clean_chars_of f
  match (List.range' 5 (s.length + 1)).findSome?
      (fun q => if four_digits_at s q then some q else none) with
  | some q => String.mk (s.take (q + 4))
  | none => String.mk (s.take 30)

/-- Claim C8 as stated: the year is the first substring matching
19\d{2}|20\d{2} anywhere in the name, without word boundaries. -/
def claim_year (s : List Char) : Option String :=
  ((List.range (s.length + 1)).findSome?
    (fun p => if year_quad_at s p then some ((s.drop p).take 4) else none)).map
    String.mk

/-- The year field per the amended claim: the first word-boundary-delimited
occurrence of 19xx/20xx, stated with a range scan. -/
def spec_year (s : List Char) : Option String :=
  ((List.range (s.length + 1)).findSome? (year_at s)).map String.mk

/-- The quality field per the claim: the first case-insensitive occurrence
of the fixed vocabulary, leftmost position first, alternation order
deciding at equal positions. -/
def spec_quality (s : List Char) : Option String :=
  ((List.range (s.length + 1)).findSome? (quality_at s)).map String.mk

/-- The metadata record per the (amended) claim C8. -/
def spec_extract_metadata (f : String) : MovieMetadata :=
  { title := clean_movie_filename f
    year := spec_year (splitext_chars f.data).1
    quality := spec_quality (splitext_chars f.data).1
    format := ascii_lower (splitext f).2 }

/-- Tier 1 condition of the spec: at most 5 ranked results and a search
intent. -/
def tier1_cond (n : Nat) (intent : String) : Prop :=
  n ≤ 5 ∧ (intent = "specific_search" ∨ intent = "format_filter")

/-- Tier 2 condition of the spec: between 6 and 20 ranked results and a
search intent. -/
def tier2_cond (n : Nat) (intent : String) : Prop :=
  6 ≤ n ∧ n ≤ 20 ∧ (intent = "specific_search" ∨ intent = "format_filter")

/-- Tier 3 condition of the spec: anything else (general scan or too many
results). -/
def tier3_cond (n : Nat) (intent : String) : Prop :=
  21 ≤ n ∨ ¬(intent = "specific_search" ∨ intent = "format_filter")

/-! ## Helper lemmas -/

/-- The recursive leftmost scan equals findSome? over the corresponding
range of positions. -/
theorem first_hit_eq_findSome (f : Nat → Option α) :
    ∀ (fuel i : Nat), first_hit f i fuel = (List.range' i fuel).findSome? f := by
  intro fuel
  induction fuel with
  | zero => intro i; rfl
  | succ n ih =>
    intro i
    rw [List.range'_succ, List.findSome?_cons]
    simp only [first_hit]
    cases f i with
    | some a => rfl
    | none => exact ih (i + 1)

/-- A foldl preserves any invariant its step preserves. -/
theorem foldl_preserve {α β : Type} {P : β → Prop} (f : β → α → β)
    (hf : ∀ b a, P b → P (f b a)) :
    ∀ (l : List α) (init : β), P init → P (l.foldl f init) := by
  intro l
  induction l with
  | nil => intro init h; exact h
  | cons a l ih => intro init h; exact ih (f init a) (hf init a h)

/-- The matching run length is at most the length of the first list. -/
theorem match_len_le_left : ∀ (x y : List Char), match_len x y ≤ x.length := by
  intro x
  induction x with
  | nil => intro y; cases y <;> simp [match_len]
  | cons a as_ ih =>
    intro y
    cases y with
    | nil => simp [match_len]
    | cons b bs =>
      simp only [match_len, List.length_cons]
      split
      · exact Nat.succ_le_succ (ih bs)
      · exact Nat.zero_le _

/-- The matching run length is at most the length of the second list. -/
theorem match_len_le_right : ∀ (x y : List Char), match_len x y ≤ y.length := by
  intro x
  induction x with
  | nil => intro y; cases y <;> simp [match_len]
  | cons a as_ ih =>
    intro y
    cases y with
    | nil => simp [match_len]
    | cons b bs =>
      simp only [match_len, List.length_cons]
      split
      · exact Nat.succ_le_succ (ih bs)
      · exact Nat.zero_le _

/-- The longest-match triple never claims more characters than remain in
either string past its start positions. -/
theorem best_match_bounds (a b : List Char) :
    (best_match a b).2.2 ≤ a.length - (best_match a b).1 ∧
      (best_match a b).2.2 ≤ b.length - (best_match a b).2.1 := by
  unfold best_match
  apply foldl_preserve
    (P := fun t : Nat × Nat × Nat =>
      t.2.2 ≤ a.length - t.1 ∧ t.2.2 ≤ b.length - t.2.1)
  · intro best i hbest
    apply foldl_preserve
      (P := fun t : Nat × Nat × Nat =>
        t.2.2 ≤ a.length - t.1 ∧ t.2.2 ≤ b.length - t.2.1)
    · intro t j ht
      dsimp only
      split
      · constructor
        · calc match_len (a.drop i) (b.drop j) ≤ (a.drop i).length :=
                match_len_le_left _ _
            _ = a.length - i := List.length_drop i a
        · calc match_len (a.drop i) (b.drop j) ≤ (b.drop j).length :=
                match_len_le_right _ _
            _ = b.length - j := List.length_drop j b
      · exact ht
    · exact hbest
  · exact ⟨Nat.zero_le _, Nat.zero_le _⟩

/-- The total matched size is bounded by each string length. -/
theorem matched_total_fuel_le :
    ∀ (fuel : Nat) (a b : List Char),
      matched_total_fuel fuel a b ≤ a.length ∧
        matched_total_fuel fuel a b ≤ b.length := by
  intro fuel
  induction fuel with
  | zero => intro a b; exact ⟨Nat.zero_le _, Nat.zero_le _⟩
  | succ n ih =>
    intro a b
    simp only [matched_total_fuel]
    split
    · exact ⟨Nat.zero_le _, Nat.zero_le _⟩
    · rename_i hk
      obtain ⟨hba, hbb⟩ := best_match_bounds a b
      obtain ⟨h1a, h1b⟩ := ih (a.take (best_match a b).1) (b.take (best_match a b).2.1)
      obtain ⟨h2a, h2b⟩ :=
        ih (a.drop ((best_match a b).1 + (best_match a b).2.2))
          (b.drop ((best_match a b).2.1 + (best_match a b).2.2))
      rw [List.length_take] at h1a h1b
      rw [List.length_drop] at h2a h2b
      omega

/-- SequenceMatcher ratio never exceeds 1. -/
theorem similarity_le_one (a b : List Char) : similarity a b ≤ 1 := by
  unfold similarity
  split
  · exact le_refl 1
  · rename_i hne
    have hM : matched_total a b ≤ a.length ∧ matched_total a b ≤ b.length :=
      matched_total_fuel_le _ a b
    have hpos : 0 < a.length + b.length := by
      rcases Nat.eq_zero_or_pos (a.length + b.length) with h | h
      · exact absurd (by simpa using h) (by simpa using hne)
      · exact h
    rw [div_le_one (by exact_mod_cast hpos)]
    have : 2 * matched_total a b ≤ a.length + b.length := by omega
    exact_mod_cast this

/-- SequenceMatcher ratio is nonnegative. -/
theorem similarity_nonneg (a b : List Char) : 0 ≤ similarity a b := by
  unfold similarity
  split
  · norm_num
  · positivity

/-- Every tier score is at most 1. -/
theorem tier_score_le_one (q m : List Char) : tier_score q m ≤ 1 := by
  simp only [tier_score]
  split
  · exact le_refl 1
  · split
    · norm_num
    · split
      · exact similarity_le_one q m
      · split
        · rename_i hm
          have hle :
              ((split_ws q).filter (fun w => str_contains_chars m w)).length ≤
                (split_ws q).length :=
            List.length_filter_le _ _
          have hqpos : 0 < (split_ws q).length := lt_of_lt_of_le hm hle
          have hdiv :
              (((split_ws q).filter (fun w => str_contains_chars m w)).length : Rat) /
                ((split_ws q).length : Rat) ≤ 1 := by
            rw [div_le_one (by exact_mod_cast hqpos)]
            exact_mod_cast hle
          have hnn :
              (0 : Rat) ≤
                (((split_ws q).filter (fun w => str_contains_chars m w)).length : Rat) /
                  ((split_ws q).length : Rat) := by positivity
          nlinarith
        · norm_num

/-- Every entry score (after the format boost) is at most 1. -/
theorem score_entry_le_one (query format_hint name path : String) :
    score_entry query format_hint name path ≤ 1 := by
  simp only [score_entry]
  split
  · split
    · exact min_le_left _ _
    · exact tier_score_le_one _ _
  · exact tier_score_le_one _ _

/-- Membership in a Python prefix slice implies membership in the list. -/
theorem mem_of_py_slice_to {x : α} {limit : Int} {l : List α}
    (h : x ∈ py_slice_to limit l) : x ∈ l := by
  unfold py_slice_to at h
  split at h
  · exact List.take_subset _ _ h
  · exact List.take_subset _ _ h

/-- A Python prefix slice with nonnegative limit has at most limit
elements. -/
theorem length_py_slice_to_le {limit : Int} (h : 0 ≤ limit) (l : List α) :
    (py_slice_to limit l).length ≤ limit.toNat := by
  unfold py_slice_to
  rw [if_pos h]
  exact List.length_take_le _ _

/-- Stable descending insertion inserts exactly one element. -/
theorem length_insert_desc (x : String × String × Rat) :
    ∀ l, (insert_desc x l).length = l.length + 1 := by
  intro l
  induction l with
  | nil => rfl
  | cons y ys ih =>
    simp only [insert_desc]
    split
    · simp only [List.length_cons, ih]
    · simp only [List.length_cons]

/-- Stable descending insertion preserves membership up to the new
element. -/
theorem mem_insert_desc {a x : String × String × Rat} :
    ∀ {l}, a ∈ insert_desc x l ↔ a = x ∨ a ∈ l := by
  intro l
  induction l with
  | nil => simp [insert_desc]
  | cons y ys ih =>
    simp only [insert_desc]
    split
    all_goals simp only [List.mem_cons, ih]
    all_goals tauto

/-- Sorting preserves length. -/
theorem length_sort_desc : ∀ l : List (String × String × Rat),
    (sort_desc l).length = l.length := by
  intro l
  induction l with
  | nil => rfl
  | cons x xs ih =>
    show (insert_desc x (sort_desc xs)).length = xs.length + 1
    rw [length_insert_desc, ih]

/-- Sorting preserves membership. -/
theorem mem_sort_desc {a : String × String × Rat} :
    ∀ {l : List (String × String × Rat)}, a ∈ sort_desc l ↔ a ∈ l := by
  intro l
  induction l with
  | nil => exact Iff.rfl
  | cons x xs ih =>
    show a ∈ insert_desc x (sort_desc xs) ↔ _
    rw [mem_insert_desc]
    simp only [List.mem_cons, ih]

/-- The root part of splitext is a sublist of the input. -/
theorem splitext_root_sublist (p : List Char) : ((splitext_chars p).1).Sublist p := by
  unfold splitext_chars
  dsimp only
  split
  · split
    · exact List.take_sublist _ _
    · exact List.Sublist.refl p
  · exact List.Sublist.refl p

/-- Cleaning a newline-free filename yields a newline-free string. -/
theorem clean_chars_no_newline {f : String} (h : '\n' ∉ f.data) :
    '\n' ∉ clean_chars_of f := by
  intro hmem
  unfold clean_chars_of at hmem
  exact h ((splitext_root_sublist f.data).subset (List.mem_of_mem_filter hmem))

/-- Past the end of the string no four-digit run can start. -/
theorem four_digits_at_false_of_le {s : List Char} {q : Nat} (h : s.length ≤ q) :
    four_digits_at s q = false := by
  unfold four_digits_at
  rw [List.drop_eq_nil_of_le h]
  rfl

/-- The quad scan returns nothing once past the end of the string. -/
theorem first_hit_quad_none_of_le {s : List Char} :
    ∀ (fuel i : Nat), s.length ≤ i →
      first_hit (fun q => if four_digits_at s q then some q else none) i fuel = none := by
  intro fuel
  induction fuel with
  | zero => intro i _; rfl
  | succ n ih =>
    intro i hi
    simp only [first_hit]
    rw [four_digits_at_false_of_le hi]
    exact ih (i + 1) (Nat.le_succ_of_le hi)

/-- On a newline-free string the regex quad scan is the plain leftmost
scan: the newline abort never fires. -/
theorem scan_quad_eq_first_hit {s : List Char} (h : '\n' ∉ s) :
    ∀ (fuel q : Nat),
      scan_quad s q fuel =
        first_hit (fun q => if four_digits_at s q then some q else none) q fuel := by
  intro fuel
  induction fuel with
  | zero => intro q; rfl
  | succ n ih =>
    intro q
    simp only [scan_quad, first_hit]
    by_cases hq : four_digits_at s q
    · rw [hq]
      simp
    · rw [Bool.not_eq_true] at hq
      rw [hq]
      simp only [Bool.false_eq_true, if_false]
      cases hd : s.drop q with
      | nil =>
        have hlen : s.length ≤ q := by
          have := congrArg List.length hd
          simp only [List.length_drop, List.length_nil] at this
          omega
        rw [first_hit_quad_none_of_le n (q + 1) (Nat.le_succ_of_le hlen)]
      | cons c cs =>
        have hc : c ∈ s := by
          have hmem : c ∈ s.drop q := by rw [hd]; exact List.mem_cons_self c cs
          exact (List.drop_subset q s) hmem
        have hcn : (c == '\n') = false := by
          rw [beq_eq_false_iff_ne]
          intro hceq
          exact h (hceq ▸ hc)
        dsimp only
        rw [hcn]
        simp only [Bool.false_eq_true, if_false]
        exact ih (q + 1)

/-- On a newline-free string a trailing .* reaches the end: nothing
survives after it. -/
theorem drop_dot_star_end {s : List Char} (h : '\n' ∉ s) (i : Nat) :
    s.drop (dot_star_end s i) = [] := by
  unfold dot_star_end
  have htw : (s.drop i).takeWhile (fun c => c ≠ '\n') = s.drop i := by
    apply List.takeWhile_eq_self_iff.mpr
    intro c hc
    have : c ∈ s := (List.drop_subset i s) hc
    simp only [ne_eq, decide_eq_true_eq]
    intro hceq
    exact h (hceq ▸ this)
  rw [htw, List.length_drop]
  apply List.drop_eq_nil_of_le
  omega

set_option maxRecDepth 100000

attribute [local semireducible] Rat.mul Rat.inv Rat.add Rat.sub

/-- On newline-free input the truncation regex behaves as the plain
leftmost-quad rule: the earliest position q at or past index 5 where four
consecutive digits start wins, keeping the prefix up to q+4; otherwise
the first 30 characters are kept (the whole string when shorter). -/
theorem trunc_chars_no_newline (s : List Char) (hs : '\n' ∉ s) :
    trunc_chars s =
      match (List.range' 5 (s.length + 1)).findSome?
          (fun q => if four_digits_at s q then some q else none) with
      | some q => s.take (q + 4)
      | none => s.take 30 := by
  have hall : ∀ n, ((s.take n).all (fun c => c ≠ '\n')) = true := by
    intro n
    rw [List.all_eq_true]
    intro c hc
    have hmem : c ∈ s := List.take_subset n _ hc
    simp only [ne_eq, decide_eq_true_eq]
    intro hceq
    exact hs (hceq ▸ hmem)
  unfold trunc_chars
  by_cases hlen : 5 ≤ s.length
  · have hcond : (((s.take 5).length == 5) && ((s.take 5).all (fun c => c ≠ '\n'))) = true := by
      rw [Bool.and_eq_true]
      refine ⟨?_, hall 5⟩
      rw [beq_iff_eq, List.length_take]
      omega
    rw [if_pos hcond, scan_quad_eq_first_hit hs, first_hit_eq_findSome]
    cases hfind : (List.range' 5 (s.length + 1)).findSome?
        (fun q => if four_digits_at s q then some q else none) with
    | some q =>
      dsimp only
      rw [drop_dot_star_end hs, List.append_nil]
    | none =>
      dsimp only
      unfold trunc_alt2
      by_cases h30 : 30 ≤ s.length
      · have hcond2 : ((30 ≤ s.length : Bool) && ((s.take 30).all (fun c => c ≠ '\n'))) = true := by
          rw [Bool.and_eq_true]
          exact ⟨decide_eq_true h30, hall 30⟩
        rw [if_pos hcond2, drop_dot_star_end hs, List.append_nil]
      · have hcond2 : ((30 ≤ s.length : Bool) && ((s.take 30).all (fun c => c ≠ '\n'))) = false := by
          rw [Bool.and_eq_false_iff]
          left
          simpa using h30
        rw [if_neg (by rw [hcond2]; exact Bool.false_ne_true)]
        rw [List.take_of_length_le (by omega)]
  · have hcond : (((s.take 5).length == 5) && ((s.take 5).all (fun c => c ≠ '\n'))) = false := by
      rw [Bool.and_eq_false_iff]
      left
      rw [beq_eq_false_iff_ne, List.length_take]
      omega
    rw [if_neg (by rw [hcond]; exact Bool.false_ne_true)]
    have hfind : (List.range' 5 (s.length + 1)).findSome?
        (fun q => if four_digits_at s q then some q else none) = none := by
      rw [List.findSome?_eq_none_iff]
      intro q hq
      have h5q : 5 ≤ q := (List.mem_range'_1.mp hq).1
      rw [four_digits_at_false_of_le (by omega)]
      rfl
    rw [hfind]
    dsimp only
    unfold trunc_alt2
    have hcond2 : ((30 ≤ s.length : Bool) && ((s.take 30).all (fun c => c ≠ '\n'))) = false := by
      rw [Bool.and_eq_false_iff]
      left
      simp only [decide_eq_false_iff_not]
      omega
    rw [if_neg (by rw [hcond2]; exact Bool.false_ne_true)]
    rw [List.take_of_length_le (by omega)]

/-- C3 (amended): clean_movie_filename equals the amended truncation rule
on newline-free filenames. -/
theorem c3_truncation_amended (f : String) (h : '\n' ∉ f.data) :
    clean_movie_filename f = spec_clean_title f := by
  unfold clean_movie_filename spec_clean_title
  dsimp only
  rw [trunc_chars_no_newline (clean_chars_of f) (clean_chars_no_newline h)]
  cases (List.range' 5 ((clean_chars_of f).length + 1)).findSome?
      (fun q => if four_digits_at (clean_chars_of f) q then some q else none) with
  | some q => rfl
  | none => rfl

/-- C8 (amended): extract_movie_metadata computes the year as the first
word-boundary-delimited 19xx/20xx occurrence, the quality as the first
case-insensitive vocabulary occurrence, the format as the lowercased
extension with its dot, and the title via clean_movie_filename. -/
theorem c8_metadata_amended (f : String) :
    extract_movie_metadata f = spec_extract_metadata f := by
  unfold extract_movie_metadata spec_extract_metadata spec_year spec_quality
  dsimp only
  rw [find_year, find_quality, first_hit_eq_findSome, first_hit_eq_findSome,
    List.range_eq_range']
  rfl

/-- C8 (counterexample): in "19999.mkv" the code finds no year, because
the regex requires word boundaries around 19\d\d|20\d\d and the digit run
19999 has none; the claim as stated (a match anywhere, no boundaries)
would find "1999". -/
theorem c8_year_counterexample :
    (extract_movie_metadata "19999.mkv").year = none ∧
      claim_year (splitext_chars "19999.mkv".data).1 = some "1999" ∧
      (extract_movie_metadata "19999.mkv").year ≠
        claim_year (splitext_chars "19999.mkv".data).1 := by
  refine ⟨by decide, by decide, by decide⟩

/-- C1: the code deletes separators instead of replacing them with
spaces, so the claimed example value "Terminator 2 1991" is not produced:
the cleaned string "Terminator219911080pBluRayx264GROUP" is truncated
after its first four-digit run at or past index 5, giving
"Terminator2199". -/
theorem c1_clean_title_eval :
    clean_movie_filename "Terminator.2.1991.1080p.BluRay.x264-GROUP.mkv" =
        "Terminator2199" ∧
      clean_movie_filename "Terminator.2.1991.1080p.BluRay.x264-GROUP.mkv" ≠
        "Terminator 2 1991" := by
  refine ⟨by decide, by decide⟩

/-- C3 (counterexample): 3001 is not a 19xx/20xx year, so the claim as
stated predicts the 30-character truncation, but the code truncates right
after ANY four consecutive digits at or past index 5. -/
theorem c3_year_counterexample :
    clean_movie_filename "Movie.3001.Extended.Cut.Director.Edition.mkv" =
        "Movie3001" ∧
      claim_clean_title "Movie.3001.Extended.Cut.Director.Edition.mkv" =
        "Movie3001ExtendedCutDirectorEd" ∧
      clean_movie_filename "Movie.3001.Extended.Cut.Director.Edition.mkv" ≠
        claim_clean_title "Movie.3001.Extended.Cut.Director.Edition.mkv" := by
  refine ⟨by decide, by decide, by decide⟩

/-- C3 (witness): the amended truncation rule applied to a concrete
newline-free filename with a year. -/
theorem c3_truncation_amended_witness :
    '\n' ∉ "Alpha.Beta.2019.1080p.mkv".data ∧
      clean_movie_filename "Alpha.Beta.2019.1080p.mkv" =
        spec_clean_title "Alpha.Beta.2019.1080p.mkv" ∧
      clean_movie_filename "Alpha.Beta.2019.1080p.mkv" = "AlphaBeta2019" :=
  ⟨by decide, c3_truncation_amended "Alpha.Beta.2019.1080p.mkv" (by decide),
    by decide⟩

/-- C2: on "Show me mkv files only" the code keeps the detected format
token in the keyword set (the filter condition passes any word when the
explicit-filter phrasing matched), so the returned search query is "mkv",
not the empty string the docstring and the spec example state; the format
hint and the intent are as claimed. -/
theorem c2_parse_intent_eval :
    parse_user_intent "Show me mkv files only" = ("mkv", "mkv", "format_filter") ∧
      parse_user_intent "Show me mkv files only" ≠ ("", "mkv", "format_filter") := by
  refine ⟨by decide, by decide⟩

/-- C7 (amended): for every nonnegative limit the search returns at most
limit entries, and the empty query returns exactly the first
min(limit, size) entries of the mapping in order, each scored 1.0. -/
theorem c7_search_limit_amended (movies : List (String × String)) (query : String)
    (limit : Int) (format_hint : String) (h : 0 ≤ limit) :
    (search_movies movies query limit format_hint).length ≤ limit.toNat ∧
      (query = "" →
        search_movies movies query limit format_hint =
          (movies.take limit.toNat).map (fun kv => (kv.1, kv.2, (1 : Rat)))) := by
  constructor
  · unfold search_movies
    split
    · rw [List.length_map]
      exact length_py_slice_to_le h _
    · exact length_py_slice_to_le h _
  · intro hq
    unfold search_movies
    rw [if_pos hq]
    unfold py_slice_to
    rw [if_pos h]

/-- C7 (witness): the amended bound and the empty-query listing at a
concrete three-entry library with limit 2. -/
theorem c7_search_limit_amended_witness :
    (0 : Int) ≤ 2 ∧
      (search_movies [("A", "/m/A.mkv"), ("B", "/m/B.mkv"), ("C", "/m/C.mkv")]
          "" 2 "").length ≤ (2 : Int).toNat ∧
      ("" = "" →
        search_movies [("A", "/m/A.mkv"), ("B", "/m/B.mkv"), ("C", "/m/C.mkv")]
            "" 2 "" =
          ([("A", "/m/A.mkv"), ("B", "/m/B.mkv"), ("C", "/m/C.mkv")].take
              (2 : Int).toNat).map (fun kv => (kv.1, kv.2, (1 : Rat)))) :=
  ⟨by decide,
    (c7_search_limit_amended [("A", "/m/A.mkv"), ("B", "/m/B.mkv"), ("C", "/m/C.mkv")]
      "" 2 "" (by decide)).1,
    (c7_search_limit_amended [("A", "/m/A.mkv"), ("B", "/m/B.mkv"), ("C", "/m/C.mkv")]
      "" 2 "" (by decide)).2⟩

/-- C7 (counterexample): Python slicing with the negative int limit -1
drops the last entry, so a one-entry library yields 0 results, and 0 is
not at most -1: the claim "returns at most limit entries ... for every
limit" fails for negative limits. -/
theorem c7_negative_limit_counterexample :
    (search_movies [("A", "/m/A.mkv")] "" (-1) "").length = 0 ∧
      ¬ (((search_movies [("A", "/m/A.mkv")] "" (-1) "").length : Int) ≤ -1) := by
  refine ⟨by decide, by decide⟩

/-- C9 (amended): the decorated _run never propagates an exception: the
handle_tool_errors wrapper sits on the core tool method itself and turns
every raised Exception into the fallback string. -/
theorem c9_run_never_raises (scan : List (String × String)) (v : PyVal) :
    ∃ s, run_tool scan v = Except.ok s := by
  cases v with
  | str msg => exact ⟨run_core scan msg, rfl⟩
  | pyint n => exact ⟨"Library scan failed Details: 'int' object has no attribute 'lower'", rfl⟩

/-- C9 (counterexample): at the canonical truly-invalid input, a
non-string argument, the decorated _run returns the catch-all fallback
string instead of propagating the AttributeError. -/
theorem c9_fallback_counterexample :
    run_tool [] (PyVal.pyint 7) =
      Except.ok "Library scan failed Details: 'int' object has no attribute 'lower'" :=
  rfl

/-- C4: the Tier 3 statistics (as modelled from the docstring and spec,
the source lines being syntactically invalid Python) computed on a
30-entry library with general_scan intent: the output counts the full
library, breaks it down by extension, lists exactly the first 5 sample
titles and ends with "... and 25 more"; the ranked list (20 entries or
none at all) does not influence the output. -/
theorem c4_tier3_model_eval :
    format_output
        ((List.range 30).map (fun i =>
          ("Movie" ++ toString i, "/films/Movie" ++ toString i ++ ".mkv")))
        ((((List.range 30).map (fun i =>
          ("Movie" ++ toString i, "/films/Movie" ++ toString i ++ ".mkv"))).take 20).map
            (fun kv => (kv.1, kv.2, (1 : Rat))))
        "" "general_scan" =
      "Library scan completed. Found 30 movies.\nFile types: .mkv: 30\nSample movies:\n- Movie0\n- Movie1\n- Movie2\n- Movie3\n- Movie4\n... and 25 more" ∧
    format_output
        ((List.range 30).map (fun i =>
          ("Movie" ++ toString i, "/films/Movie" ++ toString i ++ ".mkv")))
        [] "" "general_scan" =
      "Library scan completed. Found 30 movies.\nFile types: .mkv: 30\nSample movies:\n- Movie0\n- Movie1\n- Movie2\n- Movie3\n- Movie4\n... and 25 more" := by
  refine ⟨by decide, by decide⟩

/-- Inserting a key absent from the dict appends the pair. -/
theorem dict_insert_of_not_mem {d : List (String × String)} {k v : String}
    (h : ∀ e ∈ d, e.1 ≠ k) : dict_insert d k v = d ++ [(k, v)] := by
  unfold dict_insert
  rw [if_neg]
  intro hany
  obtain ⟨e, he, heq⟩ := List.any_eq_true.mp hany
  exact h e he (by simpa using heq)

/-- The filtering fold of _filter_by_extension appends exactly the
matching entries when the keys already placed and the keys to come are
disjoint and the keys to come are distinct. -/
theorem filter_fold_eq (format : String) :
    ∀ (l acc : List (String × String)),
      (∀ kv ∈ l, ∀ e ∈ acc, e.1 ≠ kv.1) →
      (l.map Prod.fst).Nodup →
      l.foldl (fun acc kv =>
        if ext_of kv.2 == format then dict_insert acc kv.1 kv.2 else acc) acc =
        acc ++ l.filter (fun kv => ext_of kv.2 == format) := by
  intro l
  induction l with
  | nil => intro acc _ _; simp
  | cons kv tl ih =>
    intro acc hdisj hnodup
    have hkv_not_tl : kv.1 ∉ tl.map Prod.fst := by
      rw [List.map_cons, List.nodup_cons] at hnodup
      exact hnodup.1
    have hnodup_tl : (tl.map Prod.fst).Nodup := by
      rw [List.map_cons, List.nodup_cons] at hnodup
      exact hnodup.2
    simp only [List.foldl_cons]
    by_cases hpred : (ext_of kv.2 == format) = true
    · rw [if_pos hpred]
      rw [dict_insert_of_not_mem (fun e he => hdisj kv (List.mem_cons_self kv tl) e he)]
      rw [ih (acc ++ [(kv.1, kv.2)]) ?_ hnodup_tl]
      · rw [List.append_assoc]
        simp only [List.filter_cons, hpred, if_true]
        rfl
      · intro kv' hkv' e he
        rcases List.mem_append.mp he with hacc | hsingle
        · exact hdisj kv' (List.mem_cons_of_mem kv hkv') e hacc
        · have : e = (kv.1, kv.2) := by simpa using hsingle
          rw [this]
          intro heq
          exact hkv_not_tl (heq ▸ List.mem_map_of_mem Prod.fst hkv')
    · rw [if_neg hpred]
      rw [ih acc (fun kv' hkv' e he => hdisj kv' (List.mem_cons_of_mem kv hkv') e he)
        hnodup_tl]
      simp only [List.filter_cons]
      rw [if_neg hpred]

/-- C10: filtering by the empty format string is the identity, and
filtering by a non-empty format keeps exactly the entries whose path
extension (lowercased, dot stripped) equals the format, in order,
without renaming or re-pathing, provided the display names are distinct
(they are: the input is a Python dict). -/
theorem c10_filter_by_extension (movies : List (String × String)) (format : String)
    (hnodup : (movies.map Prod.fst).Nodup) :
    filter_by_extension movies "" = movies ∧
      (format ≠ "" →
        filter_by_extension movies format =
          movies.filter (fun kv => ext_of kv.2 == format)) := by
  constructor
  · rfl
  · intro hf
    unfold filter_by_extension
    rw [if_neg hf]
    rw [filter_fold_eq format movies [] (by intro kv _ e he; cases he) hnodup]
    rfl

/-- C10 (witness): the filter at a concrete two-entry library. -/
theorem c10_filter_by_extension_witness :
    ([("A", "/x/A.mkv"), ("B", "/x/B.mp4")].map Prod.fst).Nodup ∧
      filter_by_extension [("A", "/x/A.mkv"), ("B", "/x/B.mp4")] "" =
        [("A", "/x/A.mkv"), ("B", "/x/B.mp4")] ∧
      ("mkv" ≠ "" →
        filter_by_extension [("A", "/x/A.mkv"), ("B", "/x/B.mp4")] "mkv" =
          [("A", "/x/A.mkv"), ("B", "/x/B.mp4")].filter
            (fun kv => ext_of kv.2 == "mkv")) :=
  ⟨by decide,
    (c10_filter_by_extension [("A", "/x/A.mkv"), ("B", "/x/B.mp4")] "mkv" (by decide)).1,
    (c10_filter_by_extension [("A", "/x/A.mkv"), ("B", "/x/B.mp4")] "mkv" (by decide)).2⟩

/-- C5: the three tier conditions are mutually exclusive and exhaustive,
format_output renders the tier whose condition holds, and with a search
intent a ranked list of exactly 5 entries gets Tier 1 and exactly 6
entries gets Tier 2. -/
theorem c5_tier_dispatch :
    (∀ (n : Nat) (intent : String),
      (tier1_cond n intent ∧ ¬tier2_cond n intent ∧ ¬tier3_cond n intent) ∨
      (¬tier1_cond n intent ∧ tier2_cond n intent ∧ ¬tier3_cond n intent) ∨
      (¬tier1_cond n intent ∧ ¬tier2_cond n intent ∧ tier3_cond n intent)) ∧
    (∀ (all_movies : List (String × String))
        (results : List (String × String × Rat)) (query intent : String),
      (tier1_cond results.length intent →
        format_output all_movies results query intent = tier1_render results query) ∧
      (tier2_cond results.length intent →
        format_output all_movies results query intent = tier2_render results query) ∧
      (tier3_cond results.length intent →
        format_output all_movies results query intent = tier3_render all_movies)) ∧
    (∀ (all_movies : List (String × String))
        (results : List (String × String × Rat)) (query intent : String),
      (intent = "specific_search" ∨ intent = "format_filter") →
      (results.length = 5 →
        format_output all_movies results query intent = tier1_render results query) ∧
      (results.length = 6 →
        format_output all_movies results query intent = tier2_render results query)) := by
  refine ⟨?_, ?_, ?_⟩
  · intro n intent
    unfold tier1_cond tier2_cond tier3_cond
    by_cases hin : intent = "specific_search" ∨ intent = "format_filter"
    · by_cases h5 : n ≤ 5
      · left
        refine ⟨⟨h5, hin⟩, ?_, ?_⟩
        · rintro ⟨h6, _, _⟩; omega
        · rintro (h21 | hnS)
          · omega
          · exact hnS hin
      · by_cases h20 : n ≤ 20
        · right; left
          refine ⟨?_, ⟨by omega, h20, hin⟩, ?_⟩
          · rintro ⟨hle, _⟩; omega
          · rintro (h21 | hnS)
            · omega
            · exact hnS hin
        · right; right
          refine ⟨?_, ?_, Or.inl (by omega)⟩
          · rintro ⟨hle, _⟩; omega
          · rintro ⟨_, hle, _⟩; omega
    · right; right
      refine ⟨?_, ?_, Or.inr hin⟩
      · rintro ⟨_, hS⟩; exact hin hS
      · rintro ⟨_, _, hS⟩; exact hin hS
  · intro all_movies results query intent
    refine ⟨?_, ?_, ?_⟩
    · intro h1
      unfold tier1_cond at h1
      unfold format_output
      rw [if_pos h1]
    · intro h2
      unfold tier2_cond at h2
      unfold format_output
      rw [if_neg (by rintro ⟨hle, _⟩; rcases h2 with ⟨h6, _, _⟩; omega)]
      rw [if_pos ⟨h2.2.1, h2.2.2⟩]
    · intro h3
      unfold tier3_cond at h3
      unfold format_output
      have hnot1 : ¬(results.length ≤ 5 ∧
          (intent = "specific_search" ∨ intent = "format_filter")) := by
        rcases h3 with h21 | hnS
        · rintro ⟨hle, _⟩; omega
        · rintro ⟨_, hS⟩; exact hnS hS
      have hnot2 : ¬(results.length ≤ 20 ∧
          (intent = "specific_search" ∨ intent = "format_filter")) := by
        rcases h3 with h21 | hnS
        · rintro ⟨hle, _⟩; omega
        · rintro ⟨_, hS⟩; exact hnS hS
      rw [if_neg hnot1, if_neg hnot2]
  · intro all_movies results query intent hin
    constructor
    · intro h5
      unfold format_output
      rw [if_pos ⟨by omega, hin⟩]
    · intro h6
      unfold format_output
      rw [if_neg (by rintro ⟨hle, _⟩; omega)]
      rw [if_pos ⟨by omega, hin⟩]

/-- C5 (witness): with intent specific_search a concrete 5-entry ranked
list renders as Tier 1 and a concrete 6-entry ranked list as Tier 2. -/
theorem c5_tier_dispatch_witness :
    ("specific_search" = "specific_search" ∨ "specific_search" = "format_filter") ∧
      format_output []
          [("M1", "/m/M1.mkv", (1 : Rat)), ("M2", "/m/M2.mkv", 1),
           ("M3", "/m/M3.mkv", 1), ("M4", "/m/M4.mkv", 1), ("M5", "/m/M5.mkv", 1)]
          "m" "specific_search" =
        tier1_render
          [("M1", "/m/M1.mkv", (1 : Rat)), ("M2", "/m/M2.mkv", 1),
           ("M3", "/m/M3.mkv", 1), ("M4", "/m/M4.mkv", 1), ("M5", "/m/M5.mkv", 1)]
          "m" ∧
      format_output []
          [("M1", "/m/M1.mkv", (1 : Rat)), ("M2", "/m/M2.mkv", 1),
           ("M3", "/m/M3.mkv", 1), ("M4", "/m/M4.mkv", 1), ("M5", "/m/M5.mkv", 1),
           ("M6", "/m/M6.mkv", 1)]
          "m" "specific_search" =
        tier2_render
          [("M1", "/m/M1.mkv", (1 : Rat)), ("M2", "/m/M2.mkv", 1),
           ("M3", "/m/M3.mkv", 1), ("M4", "/m/M4.mkv", 1), ("M5", "/m/M5.mkv", 1),
           ("M6", "/m/M6.mkv", 1)]
          "m" :=
  ⟨Or.inl rfl,
    (c5_tier_dispatch.2.2 []
      [("M1", "/m/M1.mkv", (1 : Rat)), ("M2", "/m/M2.mkv", 1),
       ("M3", "/m/M3.mkv", 1), ("M4", "/m/M4.mkv", 1), ("M5", "/m/M5.mkv", 1)]
      "m" "specific_search" (Or.inl rfl)).1 (by decide),
    (c5_tier_dispatch.2.2 []
      [("M1", "/m/M1.mkv", (1 : Rat)), ("M2", "/m/M2.mkv", 1),
       ("M3", "/m/M3.mkv", 1), ("M4", "/m/M4.mkv", 1), ("M5", "/m/M5.mkv", 1),
       ("M6", "/m/M6.mkv", 1)]
      "m" "specific_search" (Or.inl rfl)).2 (by decide)⟩

/-- C6: every returned score lies in (0, 1]; an exact-substring entry
scores at least as much as a fuzzy-tier entry for the same query and
hint; the format boost multiplies a positive tier score by 1.1 capped at
1.0 when the extension matches the non-empty hint; and a zero tier score
stays zero through the boost. -/
theorem c6_score_properties :
    (∀ (movies : List (String × String)) (query : String) (limit : Int)
        (format_hint : String) (r : String × String × Rat),
      r ∈ search_movies movies query limit format_hint →
        0 < r.2.2 ∧ r.2.2 ≤ 1) ∧
    (∀ (query format_hint name1 path1 name2 path2 : String),
      str_contains_chars (ascii_lower name1).data (ascii_lower query).data = true →
      str_contains_chars (ascii_lower name2).data (ascii_lower query).data = false →
      ((split_ws (ascii_lower query).data).all
        (fun w => str_contains_chars (ascii_lower name2).data w)) = false →
      3 / 5 ≤ similarity (ascii_lower query).data (ascii_lower name2).data →
      score_entry query format_hint name2 path2 ≤
        score_entry query format_hint name1 path1) ∧
    (∀ (query format_hint name path : String),
      format_hint ≠ "" →
      0 < tier_score (ascii_lower query).data (ascii_lower name).data →
      ext_of path = format_hint →
      score_entry query format_hint name path =
        min 1 (tier_score (ascii_lower query).data (ascii_lower name).data * (11 / 10))) ∧
    (∀ (query format_hint name path : String),
      tier_score (ascii_lower query).data (ascii_lower name).data = 0 →
      score_entry query format_hint name path = 0) := by
  have hcontains_one : ∀ (query format_hint name path : String),
      str_contains_chars (ascii_lower name).data (ascii_lower query).data = true →
      score_entry query format_hint name path = 1 := by
    intro query format_hint name path hc
    have htier : tier_score (ascii_lower query).data (ascii_lower name).data = 1 := by
      unfold tier_score
      rw [if_pos hc]
    simp only [score_entry, htier]
    split
    · split
      · rw [min_eq_left (by norm_num)]
      · rfl
    · rfl
  refine ⟨?_, ?_, ?_, ?_⟩
  · intro movies query limit format_hint r hr
    unfold search_movies at hr
    split at hr
    · obtain ⟨kv, _, hkv⟩ := List.mem_map.mp hr
      rw [← hkv]
      exact ⟨by norm_num, by norm_num⟩
    · have hr2 := mem_sort_desc.mp (mem_of_py_slice_to hr)
      obtain ⟨kv, _, hkv⟩ := List.mem_filterMap.mp hr2
      by_cases hpos : 0 < score_entry query format_hint kv.1 kv.2
      · rw [if_pos hpos] at hkv
        obtain rfl := Option.some_injective _ hkv
        exact ⟨hpos, score_entry_le_one query format_hint kv.1 kv.2⟩
      · rw [if_neg hpos] at hkv
        exact absurd hkv (Option.noConfusion)
  · intro query format_hint name1 path1 name2 path2 hc1 _ _ _
    rw [hcontains_one query format_hint name1 path1 hc1]
    exact score_entry_le_one query format_hint name2 path2
  · intro query format_hint name path hne hpos hext
    simp only [score_entry]
    rw [if_pos ⟨hne, hpos⟩, if_pos hext]
  · intro query format_hint name path h0
    simp only [score_entry, h0]
    split
    · rename_i hcon
      exact absurd hcon.2 (lt_irrefl 0)
    · rfl

/-- C6 (witness): the score properties at concrete entries: an exact
match returned with score 1, a fuzzy-only entry scoring below it, the
boost formula on a matching extension, and a zero tier score staying
zero. -/
theorem c6_score_properties_witness :
    (("The Matrix", "/m/The.Matrix.1999.mkv", (1 : Rat)) ∈
        search_movies [("The Matrix", "/m/The.Matrix.1999.mkv")] "matrix" 20 "" ∧
      (0 < ("The Matrix", "/m/The.Matrix.1999.mkv", (1 : Rat)).2.2 ∧
        ("The Matrix", "/m/The.Matrix.1999.mkv", (1 : Rat)).2.2 ≤ 1)) ∧
    score_entry "matrix" "" "Matrik" "/m/Matrik.mkv" ≤
      score_entry "matrix" "" "The Matrix" "/m/The.Matrix.1999.mkv" ∧
    score_entry "matrix" "mkv" "The Matrix" "/m/The.Matrix.1999.mkv" =
      min 1 (tier_score (ascii_lower "matrix").data (ascii_lower "The Matrix").data *
        (11 / 10)) ∧
    score_entry "zzz" "mkv" "Matrix" "/m/Matrix.mkv" = 0 :=
  ⟨⟨by decide,
    c6_score_properties.1 [("The Matrix", "/m/The.Matrix.1999.mkv")] "matrix" 20 ""
      ("The Matrix", "/m/The.Matrix.1999.mkv", (1 : Rat)) (by decide)⟩,
    c6_score_properties.2.1 "matrix" "" "The Matrix" "/m/The.Matrix.1999.mkv"
      "Matrik" "/m/Matrik.mkv" (by decide) (by decide) (by decide) (by decide),
    c6_score_properties.2.2.1 "matrix" "mkv" "The Matrix" "/m/The.Matrix.1999.mkv"
      (by decide) (by decide) (by decide),
    c6_score_properties.2.2.2 "zzz" "mkv" "Matrix" "/m/Matrix.mkv" (by decide)⟩
